import Mathlib

set_option autoImplicit false
set_option maxHeartbeats 1000000

/-!
Verification of `DerivativesDataSink` from `src/datasink.py`
(templateflow/registration-framework).

The development shallowly embeds the body of
`DerivativesDataSink._run_interface` (src/datasink.py, lines 174-286)
together with the constructor-time metadata handling (lines 156-172).
Paths and file names are plain strings; the nipype trait machinery is
represented by explicit records; the external collaborators
(`niworkflows.utils.misc.splitext`, `niworkflows.utils.misc._copy_any`,
`nibabel` image loading and `templateflow.api.templates`) are modelled by
faithful string functions, an oracle for the per-file copy result, an
oracle for the image that loading each written file yields, and an
abstract list of standard-space names, respectively.
-/

namespace Datasink

/-- ASCII alphanumeric test, the regex character class `[a-zA-Z0-9]` used by
the `BIDS_NAME` pattern (src/datasink.py, lines 15-22). -/
def isAlnum (c : Char) : Bool :=
  (decide ('a' ≤ c) && decide (c ≤ 'z')) ||
  (decide ('A' ≤ c) && decide (c ≤ 'Z')) ||
  (decide ('0' ≤ c) && decide (c ≤ '9'))

/-- Longest run of alphanumeric characters at the head of a character list,
paired with the remaining characters (greedy matching of `[a-zA-Z0-9]+`). -/
def takeAlnum : List Char → List Char × List Char
  | [] => ([], [])
  | c :: cs =>
    if isAlnum c then
      let (r, rest) := takeAlnum cs
      (c :: r, rest)
    else ([], c :: cs)

/-- Split a character list at the LAST occurrence of `c` (the semantics of
Python `s.rsplit(c, 1)` when it returns two pieces); `none` when `c` does
not occur (in which case the two-variable unpacking in Python raises
`ValueError`). -/
def rsplitLastChar (c : Char) : List Char → Option (List Char × List Char)
  | [] => none
  | x :: xs =>
    match rsplitLastChar c xs with
    | some (a, b) => some (x :: a, b)
    | none => if x = c then some ([], xs) else none

/-- The part of a path after the last slash (Python `os.path.basename`). -/
def basenameOf (p : String) : String :=
  match rsplitLastChar '/' p.data with
  | some (_, b) => String.mk b
  | none => p

/-- The part of a path before the last slash (Python `Path(p).parent` as a
string). A slash-free path has parent `"."`; the paths this program
builds always contain slashes. -/
def parentDir (p : String) : String :=
  match rsplitLastChar '/' p.data with
  | some (a, _) => String.mk a
  | none => "."

/-- Python `str(Path(a) / b)` for a relative component `b`. -/
def pathJoin (a b : String) : String :=
  if a = "." then b else a ++ "/" ++ b

/-- Split a character list on every occurrence of `c` (Python
`s.split(c)`): the result always has one more piece than there are
occurrences of `c`. -/
def splitOnChar (c : Char) : List Char → List (List Char)
  | [] => [[]]
  | x :: xs =>
    match splitOnChar c xs with
    | [] => [[]]
    | r :: rs => if x = c then [] :: r :: rs else (x :: r) :: rs

/-- Name of the parent directory of a path (`Path(p).parent.name`,
src/datasink.py, line 191): the next-to-last slash-separated component,
or `""` when there is none. -/
def parentName (p : String) : String :=
  String.mk (((splitOnChar '/' p.data).dropLast).getLastD [])

/-- CPython `posixpath.splitext` on a slash-free name: split at the last
dot, except that a dot with only dots before it begins no extension. -/
def osSplitext (b : String) : String × String :=
  match rsplitLastChar '.' b.data with
  | none => (b, "")
  | some (pre, post) =>
    if pre.any (fun c => c != '.') then (String.mk pre, String.mk ('.' :: post))
    else (b, "")

/-- The external helper `niworkflows.utils.misc.splitext` (imported on
src/datasink.py, line 12): basename of the path split into stem and
extension, treating a trailing `.gz` as part of a double extension, e.g.
`some/file.nii.gz` gives `("file", ".nii.gz")`. -/
def splitext (p : String) : String × String :=
  let fe := osSplitext (basenameOf p)
  if fe.2 = ".gz" then
    let fe2 := osSplitext fe.1
    (fe2.1, fe2.2 ++ ".gz")
  else fe

/-- Match `(sub|tpl)-[a-zA-Z0-9]+` at the head of a character list,
returning the matched `subject_id` characters and the rest. Part of the
`BIDS_NAME` regular expression (src/datasink.py, lines 15-22). -/
def subjTail (pre : List Char) (rest : List Char) : Option (List Char × List Char) :=
  if (takeAlnum rest).1.isEmpty then none
  else some (pre ++ (takeAlnum rest).1, (takeAlnum rest).2)

/-- Head match for the `subject_id` group of `BIDS_NAME`: a literal `sub-`
or `tpl-` prefix followed by at least one alphanumeric character. -/
def matchSubject (l : List Char) : Option (List Char × List Char) :=
  if l.take 4 = ['s', 'u', 'b', '-'] ∨ l.take 4 = ['t', 'p', 'l', '-'] then
    subjTail (l.take 4) (l.drop 4)
  else none

/-- Optional `(_(?P<session_id>ses-[a-zA-Z0-9]+))?` group immediately after
the subject: returns the `session_id` value (without the leading
underscore) when present. -/
def matchSession (l : List Char) : Option (List Char) :=
  match l with
  | '_' :: 's' :: 'e' :: 's' :: '-' :: rest =>
    let (r, _) := takeAlnum rest
    if r.isEmpty then none else some (['s', 'e', 's', '-'] ++ r)
  | _ => none

/-- `BIDS_NAME.search(src_fname)` projected to the two groups the code
reads, `subject_id` and `session_id` (src/datasink.py, lines 189-202).
`src_fname` is a basename, so the leading `(.*\/)?` of the pattern is
vacuous and, the pattern being anchored with `^`, search means match at
the start. The `task/acq/rec/run` groups are matched by the regex but
never read by `_run_interface`, so they are not modelled. `none` models a
failed search, on which `m.groupdict()` raises `AttributeError`. -/
def bidsNameSearch (s : String) : Option (String × Option String) :=
  match matchSubject s.data with
  | none => none
  | some (subj, rest) => some (String.mk subj, (matchSession rest).map String.mk)

/-- Whether the `BIDS_NAME` subject group matches at the head of `s`. -/
def startsWithSubject (s : String) : Bool :=
  (matchSubject s.data).isSome

/-- Python `ext.endswith('.gz')` (src/datasink.py, lines 184, 186): the
last three characters are `.gz`. -/
def endsGz (s : String) : Bool :=
  s.data.reverse.take 3 == ['z', 'g', '.']

/-- Python `ext[:-3]`, dropping the last three characters
(src/datasink.py, line 187). -/
def pyDropLast3 (s : String) : String :=
  String.mk (s.data.take (s.data.length - 3))

/-- Extension/compression resolution (src/datasink.py, lines 183-187).
`compress` is a nipype Bool trait without a default, hence `Option Bool`:
`some true` is `compress is True`, `some false` is `compress is False`,
`none` is undefined. -/
def resolveExt (ext : String) (compress : Option Bool) : String :=
  if compress = some true ∧ endsGz ext = false then ext ++ ".gz"
  else if compress = some false ∧ endsGz ext = true then pyDropLast3 ext
  else ext

/-- Python `'{:04d}'.format(i)` for a natural `i`: decimal digits padded
with zeros to a minimum width of four (src/datasink.py, line 219). -/
def pad4 (i : Nat) : String :=
  let s := toString i
  if s.length < 4 then String.mk (List.replicate (4 - s.length) '0') ++ s else s

/-- `'_space-{}'.format(space) if space else ''` (src/datasink.py, line 221). -/
def segSpace (space : String) : String :=
  if space = "" then "" else "_space-" ++ space

/-- `'_desc-{}'.format(desc) if desc else ''` (src/datasink.py, line 222). -/
def segDesc (d : String) : String :=
  if d = "" then "" else "_desc-" ++ d

/-- `'_{}'.format(suffix) if suffix else ''` (src/datasink.py, line 223). -/
def segSuffix (s : String) : String :=
  if s = "" then "" else "_" ++ s

/-- `'' if not keep_dtype else '_%s' % dtype` (src/datasink.py, line 224):
the `dtype` variable is rebound here, so later comparisons against
`'_bold'` see this segment, not the raw datatype token. -/
def dtypeSegment (keep : Bool) (tok : String) : String :=
  if keep then "_" ++ tok else ""

/-- JSON-serializable metadata values as they occur in the sidecar: strings,
booleans, and other scalars carried by their `json.dumps` literal text. -/
inductive JVal where
  | str (s : String)
  | boolVal (b : Bool)
  | raw (lit : String)
  deriving DecidableEq, Repr

/-- A Python dict of metadata, as an insertion-ordered association list. -/
abbrev Meta := List (String × JVal)

/-- Dict lookup: value of the first pair with the given key. -/
def metaLookup (d : Meta) (k : String) : Option JVal :=
  (d.find? (fun p => p.1 == k)).map Prod.snd

/-- Python `d[k] = v`: replace the value in place when the key is present,
append a new pair otherwise. -/
def dictSet (d : Meta) (k : String) (v : JVal) : Meta :=
  if d.any (fun p => p.1 == k) then d.map (fun p => if p.1 == k then (k, v) else p)
  else d ++ [(k, v)]

/-- Python `d1.update(d2)`: write every pair of `d2` into `d1` in order. -/
def dictUpdate (d1 d2 : Meta) : Meta :=
  d2.foldl (fun acc p => dictSet acc p.1 p.2) d1

/-- JSON string escaping for the characters our model distinguishes. -/
def escChars : List Char → List Char
  | [] => []
  | c :: cs => (if c = '"' || c = '\\' then ['\\', c] else [c]) ++ escChars cs

/-- A JSON string literal. -/
def jsonStr (s : String) : String :=
  "\"" ++ String.mk (escChars s.data) ++ "\""

/-- Serialization of one metadata value. -/
def renderJVal : JVal → String
  | .str s => jsonStr s
  | .boolVal b => if b then "true" else "false"
  | .raw l => l

/-- Lexicographic comparison of character lists by code point, the string
ordering both Python and Lean use. -/
def charListLt : List Char → List Char → Bool
  | [], [] => false
  | [], _ :: _ => true
  | _ :: _, [] => false
  | a :: as, b :: bs =>
    if a.toNat < b.toNat then true
    else if b.toNat < a.toNat then false
    else charListLt as bs

/-- String strictly-less, by code points. -/
def strLtB (s t : String) : Bool := charListLt s.data t.data

/-- Insertion into a key-sorted association list. -/
def insertByKey (p : String × JVal) : Meta → Meta
  | [] => [p]
  | q :: qs => if strLtB p.1 q.1 then p :: q :: qs else q :: insertByKey p qs

/-- Sort a metadata dict by key (Python `sort_keys=True`; string comparison
is lexicographic on code points in both languages). -/
def sortByKey (d : Meta) : Meta :=
  d.foldr insertByKey []

/-- `json.dumps(metadata, sort_keys=True, indent=2)` for a flat dict
(src/datasink.py, line 284): keys sorted, each entry on its own line
indented by two spaces, entries separated by commas. -/
def pyDumps (d : Meta) : String :=
  match sortByKey d with
  | [] => "\x7b\x7d"
  | l => "\x7b\n" ++
      String.intercalate ",\n" (l.map (fun p => "  " ++ jsonStr p.1 ++ ": " ++ renderJVal p.2)) ++
      "\n\x7d"

/-- The slice of a NIfTI-1/NIfTI-2 header the normalizer reads:
`hdr.get_xyzt_units()` (two unit name strings) and the `qform_code` /
`sform_code` integers (src/datasink.py, lines 252-255). -/
structure NiftiHdr where
  xyzUnit : String
  tUnit : String
  qformCode : Int
  sformCode : Int
  deriving DecidableEq, Repr

/-- What `nb.load` yields for a written file: a NIfTI-1/NIfTI-2 image with
its header, or any other image class (e.g. a CIfTI-2 `.dtseries.nii`),
for which the `isinstance` test on line 249 fails. -/
inductive LoadedImage where
  | nifti (h : NiftiHdr)
  | other
  deriving DecidableEq, Repr

/-- `None if u == 'unknown' else u` (src/datasink.py, lines 253-254). -/
def unkOpt (u : String) : Option String :=
  if u = "unknown" then none else some u

/-- `curr_units` of src/datasink.py, lines 253-254. -/
def currUnitsOf (h : NiftiHdr) : Option String × Option String :=
  (unkOpt h.xyzUnit, unkOpt h.tUnit)

/-- `curr_codes` of src/datasink.py, line 255. -/
def currCodesOf (h : NiftiHdr) : Int × Int :=
  (h.qformCode, h.sformCode)

/-- Python `o or d` for an optional string `o`: `d` when `o` is `None` or
empty (falsy), `o` otherwise. -/
def pyOrStr (o : Option String) (d : String) : String :=
  match o with
  | none => d
  | some s => if s = "" then d else s

/-- `units = (curr_units[0] or 'mm', 'sec' if dtype == '_bold' else None)`
(src/datasink.py, line 258). `dtypeSeg` is the rebound `dtype` variable of
line 224, i.e. the formatted filename segment. -/
def targetUnits (cu : Option String × Option String) (dtypeSeg : String) :
    Option String × Option String :=
  (some (pyOrStr cu.1 "mm"), if dtypeSeg = "_bold" then some "sec" else none)

/-- `xcodes` (src/datasink.py, lines 259-264): `(1, 1)` when the space
label is empty (falsy), else `(4, 4)` when it is a member of the
standard-space registry (`templateflow.api.templates()`), else `(2, 2)`. -/
def targetCodes (space : String) (registry : List String) : Int × Int :=
  if space = "" then (1, 1)
  else if registry.contains space then (4, 4) else (2, 2)

/-- The header data written back when a rewrite occurs: `set_qform` and
`set_sform` with the image's own affine and the target codes, and
`set_xyzt_units(*units)` (src/datasink.py, lines 268-274). -/
structure FixedHdr where
  qform : Int
  sform : Int
  units : Option String × Option String
  deriving DecidableEq, Repr

/-- The header-normalization decision (src/datasink.py, lines 252-274):
rewrite exactly when the current codes differ from the target codes or the
current units differ from the target units; the Boolean is the
`fixed_hdr` flag, the option is the rewritten header (`none` = the file
on disk is left untouched). -/
def hdrCheck (space : String) (registry : List String) (dtypeSeg : String)
    (h : NiftiHdr) : Bool × Option FixedHdr :=
  let cu := currUnitsOf h
  let cc := currCodesOf h
  let units := targetUnits cu dtypeSeg
  let xcodes := targetCodes space registry
  if cc ≠ xcodes ∨ cu ≠ units then
    (true, some { qform := xcodes.1, sform := xcodes.2, units := units })
  else (false, none)

/-- Construction-time state of a `DerivativesDataSink`
(src/datasink.py, lines 153-172): the declared extra entity names (in
declaration order), the output path base (class attribute
`"templateflowreg"` unless overridden), and the keyword arguments that
were not static traits, which lines 159-162 divert into `self._metadata`. -/
structure SinkConfig where
  allowed_entities : List String
  out_path_base : String
  ctor_metadata : Meta

/-- The input traits read by `_run_interface`
(src/datasink.py, lines 25-39). `entity_values` gives the values of the
dynamically added allowed-entity traits (`none` = undefined or `None`,
line 211); `dyn_metadata` gives the values of the dynamically added
non-static traits that lines 277-280 merge into the metadata. -/
structure SinkInputs where
  base_directory : Option String
  check_hdr : Bool
  compress : Option Bool
  desc : String
  extra_values : Option (List String)
  in_file : List String
  keep_dtype : Bool
  meta_dict : Option Meta
  source_file : String
  space : String
  suffix : String
  entity_values : List (String × String)
  dyn_metadata : Meta

/-- The ambient collaborators of one invocation: the runtime working
directory (line 193), the standard-space registry
(`templateflow.api.templates()`, lines 261-262), the image that
`nb.load` yields for the i-th written file (line 248), and the Boolean
`_copy_any` returns for the i-th copy (line 244). -/
structure RunEnv where
  cwd : String
  registry : List String
  image : Nat → LoadedImage
  copyResult : Nat → Bool

/-- The Python exceptions `_run_interface` can raise in this model:
`ValueError` from the two-variable unpacking of `rsplit` (line 182),
`AttributeError` from `m.groupdict()` when the `BIDS_NAME` search
returned `None` (lines 189, 199), `IndexError` from `in_file[0]`
(line 183) or `extra_values[i]` (line 232). -/
inductive RunError where
  | valueError
  | attributeError
  | indexError
  deriving DecidableEq, Repr

/-- The observable outcome of a successful `_run_interface`:
`out_file`, `compression`, `fixed_hdr`, and the sidecar as a pair of its
path and the JSON text written to it (`self._results`, lines 226-285).
`aborted` records whether the early `return runtime` on line 251 fired,
skipping the remaining files and the sidecar. -/
structure RunResults where
  out_file : List String
  compression : List Bool
  fixed_hdr : List Bool
  aborted : Bool
  out_meta : Option (String × String)
  deriving DecidableEq, Repr

/-- Lookup in the entity-value assignment (getattr on a trait store). -/
def lookupStr (d : List (String × String)) (k : String) : Option String :=
  (d.find? (fun p => p.1 == k)).map Prod.snd

/-- The concatenated allowed-entity filename segments
(src/datasink.py, lines 208-215): the dict comprehension over
`self._allowed_entities` followed by the join over the same list in
declared order, each defined entity contributing `'_%s-%s' % (key, value)`. -/
def entitySegments (allowed : List String) (vals : List (String × String)) : String :=
  String.join (allowed.map (fun k =>
    match lookupStr vals k with
    | some v => "_" ++ k ++ "-" ++ v
    | none => ""))

/-- Everything lines 181-224 compute before the copy loop:
the file count, the multi-file formatting flag of line 218, and the
pieces of the format string. -/
structure PrepData where
  n : Nat
  multi : Bool
  extra_values : Option (List String)
  base_fname : String
  spaceSeg : String
  descSeg : String
  entsSeg : String
  suffixSeg : String
  dtypeSeg : String
  ext : String
  deriving DecidableEq, Repr

/-- The formatted output file name for index `i`
(src/datasink.py, lines 214-219 and 229-242): with `extra_values`
defined, `formatstr` keeps the `extra` slot and indexes `extra_values[i]`
(an out-of-range index raises); with several files and no `extra_values`,
the zero-padded index replaces the `extra` slot between the suffix and
datatype segments; otherwise `extra` is empty. -/
def nameFor (base space desc ents sfx dtypeSeg ext : String)
    (extraVals : Option (List String)) (multi : Bool) (i : Nat) :
    Except RunError String :=
  match extraVals with
  | some l =>
    match l[i]? with
    | some v => .ok (base ++ space ++ desc ++ ents ++ "_" ++ v ++ sfx ++ dtypeSeg ++ ext)
    | none => .error .indexError
  | none =>
    if multi then .ok (base ++ space ++ desc ++ ents ++ sfx ++ pad4 i ++ dtypeSeg ++ ext)
    else .ok (base ++ space ++ desc ++ ents ++ sfx ++ dtypeSeg ++ ext)

/-- The name of the i-th output file, from the prepared pieces. -/
def PrepData.nameAt (pd : PrepData) (i : Nat) : Except RunError String :=
  nameFor pd.base_fname pd.spaceSeg pd.descSeg pd.entsSeg pd.suffixSeg
    pd.dtypeSeg pd.ext pd.extra_values pd.multi i

/-- Lines 181-224 of `_run_interface`: strip the source extension, split
off the datatype token at the last underscore (`ValueError` when there is
no underscore), resolve the output extension from the FIRST payload file
(`IndexError` when the list is empty), match the BIDS labels
(`AttributeError` when the subject cannot be matched), and build the
destination directory `base/<out_path_base>/<subject>[/<session>]/<mod>`
and the filename segments. `Path(...).resolve()` and `mkdir` are modelled
as the identity on the path string. -/
def prepare (env : RunEnv) (cfg : SinkConfig) (ins : SinkInputs) :
    Except RunError PrepData :=
  let s0 := (splitext ins.source_file).1
  match rsplitLastChar '_' s0.data with
  | none => .error .valueError
  | some (sf, dt) =>
    let src_fname := String.mk sf
    let dtypeTok := String.mk dt
    match ins.in_file.head? with
    | none => .error .indexError
    | some f0 =>
      let ext := resolveExt (splitext f0).2 ins.compress
      match bidsNameSearch src_fname with
      | none => .error .attributeError
      | some (subj, ses) =>
        let mod := parentName ins.source_file
        let bdir := ins.base_directory.getD env.cwd
        let out_path := bdir ++ "/" ++ cfg.out_path_base ++ "/" ++ subj ++
          (match ses with | some s => "/" ++ s | none => "") ++ "/" ++ mod
        .ok
          { n := ins.in_file.length
            multi := decide (1 < ins.in_file.length) && ins.extra_values.isNone
            extra_values := ins.extra_values
            base_fname := out_path ++ "/" ++ src_fname
            spaceSeg := segSpace ins.space
            descSeg := segDesc ins.desc
            entsSeg := entitySegments cfg.allowed_entities ins.entity_values
            suffixSeg := segSuffix ins.suffix
            dtypeSeg := dtypeSegment ins.keep_dtype dtypeTok
            ext := ext }

/-- The per-file data the copy loop consumes. -/
structure StepParams where
  nameAt : Nat → Except RunError String
  copyRes : Nat → Bool
  image : Nat → LoadedImage
  check_hdr : Bool
  space : String
  registry : List String
  dtypeSeg : String

/-- The loop parameters of one invocation. -/
def stepParams (env : RunEnv) (ins : SinkInputs) (pd : PrepData) : StepParams :=
  { nameAt := pd.nameAt
    copyRes := env.copyResult
    image := env.image
    check_hdr := ins.check_hdr
    space := ins.space
    registry := env.registry
    dtypeSeg := pd.dtypeSeg }

/-- `out_file.endswith('.nii') or out_file.endswith('.nii.gz')`
(src/datasink.py, line 246). -/
def endsNii (s : String) : Bool :=
  (".nii".data.isSuffixOf s.data) || (".nii.gz".data.isSuffixOf s.data)

/-- The header-check part of one loop iteration
(src/datasink.py, lines 246-274), for the file named `nm` at index `i`:
first component is the `fixed_hdr` flag recorded for the file, second is
whether the early `return runtime` of line 251 fires (a loaded image that
is not NIfTI-1/NIfTI-2). -/
def fileStep (P : StepParams) (i : Nat) (nm : String) : Bool × Bool :=
  if P.check_hdr && endsNii nm then
    match P.image i with
    | .other => (false, true)
    | .nifti h => ((hdrCheck P.space P.registry P.dtypeSeg h).1, false)
  else (false, false)

/-- Accumulated loop state: the `out_file` and `compression` lists grown
per file, and the full-length `fixed_hdr` list initialized to `False`
(src/datasink.py, lines 226-227). -/
structure LoopState where
  out : List String
  comp : List Bool
  fixed : List Bool
  deriving DecidableEq, Repr

/-- One iteration's appends: record the output name and the `_copy_any`
result, and store the file's header flag (src/datasink.py, lines 243-244
and 267). -/
def pushStep (P : StepParams) (i : Nat) (nm : String) (st : LoopState) : LoopState :=
  { out := st.out ++ [nm]
    comp := st.comp ++ [P.copyRes i]
    fixed := st.fixed.set i (fileStep P i nm).1 }

/-- The `for i, fname in enumerate(self.inputs.in_file)` loop
(src/datasink.py, lines 229-274), iterating `k` more files starting at
index `i`. The Boolean result records whether the loop was abandoned by
the early `return runtime` of line 251. -/
def runLoop (P : StepParams) : Nat → Nat → LoopState → Except RunError (Bool × LoopState)
  | _, 0, st => .ok (false, st)
  | i, k + 1, st =>
    match P.nameAt i with
    | .error e => .error e
    | .ok nm =>
      let st2 := pushStep P i nm st
      if (fileStep P i nm).2 then .ok (true, st2)
      else runLoop P (i + 1) k st2

/-- The value of a successful name computation (used to describe loop
states whose iterations are known not to have raised). -/
def nameValue (P : StepParams) (i : Nat) : String :=
  match P.nameAt i with
  | .ok nm => nm
  | .error _ => ""

/-- The loop state after `d` further non-stopping iterations starting at
index `i`. -/
def advance (P : StepParams) : Nat → Nat → LoopState → LoopState
  | _, 0, st => st
  | i, d + 1, st => advance P (i + 1) d (pushStep P i (nameValue P i) st)

/-- Sidecar location (src/datasink.py, lines 282-283): the parent
directory of the single output file joined with its stem plus `.json`. -/
def sidecarPath (f : String) : String :=
  pathJoin (parentDir f) ((splitext f).1 ++ ".json")

/-- Lines 174-179: when `meta_dict` is defined it becomes the base of
`self._metadata` and the construction-time keyword metadata is written
over it ("inputs passed in construction take priority"). -/
def mergedCtorMeta (cfg : SinkConfig) (ins : SinkInputs) : Meta :=
  match ins.meta_dict with
  | some m => dictUpdate m cfg.ctor_metadata
  | none => cfg.ctor_metadata

/-- Lines 277-280: the defined dynamically-added non-static traits are
written over `self._metadata` before the sidecar is serialized. -/
def finalMetadata (cfg : SinkConfig) (ins : SinkInputs) : Meta :=
  dictUpdate (mergedCtorMeta cfg ins) ins.dyn_metadata

/-- Lines 276-286 plus the early-return behaviour: the run's results.
A sidecar is produced only when the loop was not abandoned, exactly one
output file was recorded, and the merged metadata is non-empty; it is the
`json.dumps(..., sort_keys=True, indent=2)` text at the stem-plus-`.json`
path next to the output file. -/
def assembleResults (stopped : Bool) (st : LoopState) (meta : Meta) : RunResults :=
  { out_file := st.out
    compression := st.comp
    fixed_hdr := st.fixed
    aborted := stopped
    out_meta :=
      if stopped then none
      else
        match st.out with
        | [f] => if meta.isEmpty then none else some (sidecarPath f, pyDumps meta)
        | _ => none }

/-- The whole of `DerivativesDataSink._run_interface`
(src/datasink.py, lines 174-286). -/
def runInterface (env : RunEnv) (cfg : SinkConfig) (ins : SinkInputs) :
    Except RunError RunResults :=
  match prepare env cfg ins with
  | .error e => .error e
  | .ok pd =>
    match runLoop (stepParams env ins pd) 0 pd.n
        { out := [], comp := [], fixed := List.replicate pd.n false } with
    | .error e => .error e
    | .ok (stopped, st) => .ok (assembleResults stopped st (finalMetadata cfg ins))

/-! ### Auxiliary lemmas -/

lemma string_eq_of_data {s t : String} (h : s.data = t.data) : s = t := by
  cases s
  cases t
  exact congrArg String.mk h

lemma underscore_append_eq_bold (tok : String) : ("_" ++ tok = "_bold") ↔ tok = "bold" := by
  constructor
  · intro h
    have hd := congrArg String.data h
    rw [String.data_append] at hd
    have h1 : ("_" : String).data = ['_'] := rfl
    have h2 : ("_bold" : String).data = ['_', 'b', 'o', 'l', 'd'] := rfl
    rw [h1, h2] at hd
    simp only [List.cons_append, List.nil_append, List.cons.injEq, true_and] at hd
    exact string_eq_of_data (hd.trans rfl)
  · rintro rfl
    rfl

lemma endsGz_strip {s : String} (h : endsGz s = true) : pyDropLast3 s ++ ".gz" = s := by
  unfold endsGz at h
  rw [beq_iff_eq] at h
  have hex : ∃ d, s.data = d ++ ['.', 'g', 'z'] := by
    refine ⟨(s.data.reverse.drop 3).reverse, ?_⟩
    conv_lhs => rw [← s.data.reverse_reverse, ← List.take_append_drop 3 s.data.reverse]
    rw [List.reverse_append, h]
    rfl
  obtain ⟨d, hs⟩ := hex
  apply string_eq_of_data
  rw [String.data_append]
  have h1 : (pyDropLast3 s).data = s.data.take (s.data.length - 3) := rfl
  have h2 : (".gz" : String).data = ['.', 'g', 'z'] := rfl
  rw [h1, h2, hs]
  have hl : (d ++ ['.', 'g', 'z']).length - 3 = d.length := by simp
  rw [hl, List.take_left]

/-! ### C5: extension/compression resolution -/

/-- C5: for every invocation, the resolved output extension obeys: with
`compress=True` and a source extension not ending in `.gz`, the suffix is
appended; with `compress=False` and an extension ending in `.gz`, the
`.gz` is stripped (the result concatenated with `.gz` restores the
source extension); in all other cases the extension passes through
unchanged (src/datasink.py, lines 183-187). -/
theorem c5_resolve_ext (ext : String) (c : Option Bool) :
    (c = some true → endsGz ext = false → resolveExt ext c = ext ++ ".gz") ∧
    (c = some false → endsGz ext = true →
      resolveExt ext c = pyDropLast3 ext ∧ resolveExt ext c ++ ".gz" = ext) ∧
    (c = none ∨ (c = some true ∧ endsGz ext = true) ∨ (c = some false ∧ endsGz ext = false) →
      resolveExt ext c = ext) := by
  refine ⟨?_, ?_, ?_⟩
  · rintro rfl h
    simp [resolveExt, h]
  · rintro rfl h
    have hr : resolveExt ext (some false) = pyDropLast3 ext := by
      simp [resolveExt, h]
    exact ⟨hr, by rw [hr]; exact endsGz_strip h⟩
  · rintro (rfl | ⟨rfl, h⟩ | ⟨rfl, h⟩)
    · simp [resolveExt]
    · simp [resolveExt, h]
    · simp [resolveExt, h]

/-- Witness for C5 at concrete extensions. -/
theorem c5_resolve_ext_witness :
    resolveExt ".nii" (some true) = ".nii.gz" ∧
    resolveExt ".nii.gz" (some false) = ".nii" ∧
    resolveExt ".nii.gz" none = ".nii.gz" := by
  refine ⟨(c5_resolve_ext ".nii" (some true)).1 rfl (by decide), ?_, ?_⟩
  · have h := ((c5_resolve_ext ".nii.gz" (some false)).2.1 rfl (by decide)).1
    rw [h]
    decide
  · exact (c5_resolve_ext ".nii.gz" none).2.2 (Or.inl rfl)

/-! ### C4: target units of the header normalizer -/

/-- C4 counterexample: with `keep_dtype=False` the rebound `dtype`
variable is the empty segment, so a source whose datatype token is
`bold` still gets no temporal unit, contradicting the claim that the
temporal target is seconds whenever the datatype token is `bold`
(src/datasink.py, lines 224 and 258). -/
theorem c4_counterexample :
    (targetUnits (some "mm", none) (dtypeSegment false "bold")).2 = none ∧
    (none : Option String) ≠ some "sec" := by
  exact ⟨rfl, by decide⟩

/-- C4 (amended): the temporal target unit is seconds exactly when
`keep_dtype` is set AND the datatype token is `bold` (the code compares
the formatted segment of line 224 against `'_bold'`); the spatial target
is the current spatial unit, or millimeters when the current unit was
marked unknown (src/datasink.py, line 258). -/
theorem c4_target_units (keep : Bool) (tok : String) (cu : Option String × Option String)
    (h : cu.1 ≠ some "") :
    targetUnits cu (dtypeSegment keep tok) =
      ((match cu.1 with | none => some "mm" | some u => some u),
        if keep = true ∧ tok = "bold" then some "sec" else none) := by
  unfold targetUnits
  refine Prod.ext ?_ ?_
  · match hcu : cu.1 with
    | none => rfl
    | some u =>
      rw [hcu] at h
      have : u ≠ "" := fun he => h (by rw [he])
      simp [pyOrStr, this]
  · cases keep with
    | false => simp [dtypeSegment]
    | true =>
      by_cases ht : tok = "bold" <;>
        simp [dtypeSegment, underscore_append_eq_bold, ht]

/-- Witness for C4 (amended) at a concrete header state. -/
theorem c4_target_units_witness :
    targetUnits (none, none) (dtypeSegment true "bold") = (some "mm", some "sec") := by
  have h := c4_target_units true "bold" (none, none) (by decide)
  simpa using h

/-! ### C7: header normalization decision -/

/-- C7: the target orientation codes are `(1,1)` with no space label,
`(4,4)` for a registry space, `(2,2)` for a non-registry space; the
header is rewritten (flag true, new header produced) exactly when the
current codes or units differ from the targets, and a conformant image
is left untouched with the flag false
(src/datasink.py, lines 255-274). -/
theorem c7_header_normalization (space : String) (registry : List String)
    (dtypeSeg : String) (h : NiftiHdr) :
    (space = "" → targetCodes space registry = (1, 1)) ∧
    (space ≠ "" → registry.contains space = true → targetCodes space registry = (4, 4)) ∧
    (space ≠ "" → registry.contains space = false → targetCodes space registry = (2, 2)) ∧
    ((hdrCheck space registry dtypeSeg h).1 = true ↔
      (currCodesOf h ≠ targetCodes space registry ∨
        currUnitsOf h ≠ targetUnits (currUnitsOf h) dtypeSeg)) ∧
    (currCodesOf h = targetCodes space registry ∧
        currUnitsOf h = targetUnits (currUnitsOf h) dtypeSeg →
      hdrCheck space registry dtypeSeg h = (false, none)) := by
  refine ⟨fun hs => by simp [targetCodes, hs],
    fun hs hc => by
      have hm : space ∈ registry := by simpa using hc
      simp [targetCodes, hs, hm],
    fun hs hc => by
      have hm : space ∉ registry := by simpa using hc
      simp [targetCodes, hs, hm], ?_, ?_⟩
  · by_cases hcond : currCodesOf h ≠ targetCodes space registry ∨
        currUnitsOf h ≠ targetUnits (currUnitsOf h) dtypeSeg <;>
      simp [hdrCheck, hcond]
  · intro hcond
    have : ¬(currCodesOf h ≠ targetCodes space registry ∨
        currUnitsOf h ≠ targetUnits (currUnitsOf h) dtypeSeg) := by
      push_neg
      exact ⟨hcond.1, hcond.2⟩
    simp [hdrCheck, this]

/-- Witness for C7 at a conformant header and at a nonconforming one. -/
theorem c7_header_normalization_witness :
    targetCodes "" ["MNI152"] = (1, 1) ∧
    targetCodes "MNI152" ["MNI152"] = (4, 4) ∧
    targetCodes "myspace" ["MNI152"] = (2, 2) ∧
    hdrCheck "" ["MNI152"] ""
      { xyzUnit := "mm", tUnit := "unknown", qformCode := 1, sformCode := 1 } = (false, none) := by
  refine ⟨(c7_header_normalization "" ["MNI152"] ""
      { xyzUnit := "mm", tUnit := "unknown", qformCode := 1, sformCode := 1 }).1 rfl,
    (c7_header_normalization "MNI152" ["MNI152"] ""
      { xyzUnit := "mm", tUnit := "unknown", qformCode := 1, sformCode := 1 }).2.1
      (by decide) (by decide),
    (c7_header_normalization "myspace" ["MNI152"] ""
      { xyzUnit := "mm", tUnit := "unknown", qformCode := 1, sformCode := 1 }).2.2.1
      (by decide) (by decide),
    (c7_header_normalization "" ["MNI152"] ""
      { xyzUnit := "mm", tUnit := "unknown", qformCode := 1, sformCode := 1 }).2.2.2.2
      ⟨by decide, by decide⟩⟩

/-! ### Dictionary lemmas for the metadata merge -/

lemma metaLookup_cons (p : String × JVal) (d : Meta) (k : String) :
    metaLookup (p :: d) k = if p.1 = k then some p.2 else metaLookup d k := by
  by_cases h : p.1 = k
  · rw [metaLookup, List.find?_cons_of_pos _ (by simp [h]), if_pos h]
    rfl
  · rw [metaLookup, List.find?_cons_of_neg _ (by simp [h]), if_neg h]
    rfl

lemma metaLookup_map_replace_ne (d : Meta) (k : String) (v : JVal) (k' : String)
    (h : k' ≠ k) :
    metaLookup (d.map (fun p => if p.1 == k then (k, v) else p)) k' = metaLookup d k' := by
  induction d with
  | nil => rfl
  | cons q rest ih =>
    simp only [List.map_cons]
    rw [metaLookup_cons, metaLookup_cons]
    by_cases hq : q.1 = k
    · have hh : (if q.1 == k then (k, v) else q) = (k, v) := by simp [hq]
      rw [hh, if_neg (fun he => h he.symm), if_neg (fun he => h (hq ▸ he).symm), ih]
    · have hh : (if q.1 == k then (k, v) else q) = q := by simp [hq]
      rw [hh, ih]

lemma metaLookup_map_replace_eq (d : Meta) (k : String) (v : JVal)
    (h : d.any (fun p => p.1 == k) = true) :
    metaLookup (d.map (fun p => if p.1 == k then (k, v) else p)) k = some v := by
  induction d with
  | nil => simp at h
  | cons q rest ih =>
    simp only [List.map_cons]
    rw [metaLookup_cons]
    by_cases hq : q.1 = k
    · have hh : (if q.1 == k then (k, v) else q) = (k, v) := by simp [hq]
      rw [hh, if_pos rfl]
    · have hh : (if q.1 == k then (k, v) else q) = q := by simp [hq]
      rw [hh, if_neg hq]
      apply ih
      rw [List.any_cons] at h
      simpa [hq] using h

lemma metaLookup_dictSet (d : Meta) (k : String) (v : JVal) (k' : String) :
    metaLookup (dictSet d k v) k' = if k' = k then some v else metaLookup d k' := by
  by_cases hmem : d.any (fun p => p.1 == k) = true
  · rw [dictSet, if_pos hmem]
    by_cases hk : k' = k
    · subst hk
      rw [if_pos rfl, metaLookup_map_replace_eq _ _ _ hmem]
    · rw [if_neg hk, metaLookup_map_replace_ne _ _ _ _ hk]
  · rw [dictSet, if_neg hmem]
    have hf : d.any (fun p => p.1 == k) = false := by
      revert hmem
      cases d.any (fun p => p.1 == k) <;> simp
    unfold metaLookup
    rw [List.find?_append]
    by_cases hk : k' = k
    · subst hk
      have hnone : d.find? (fun p => p.1 == k') = none := by
        rw [List.find?_eq_none]
        intro x hx
        exact List.any_eq_false.mp hf x hx
      rw [hnone, if_pos rfl]
      simp [List.find?]
    · have h2 : List.find? (fun p => p.1 == k') [(k, v)] = none := by
        rw [List.find?_cons_of_neg]
        · rfl
        · simp only [beq_iff_eq]
          exact fun he => hk he.symm
      rw [h2, Option.or_none, if_neg hk]

lemma metaLookup_dictUpdate (d1 d2 : Meta) (hnd : (d2.map Prod.fst).Nodup) (k : String) :
    metaLookup (dictUpdate d1 d2) k = (metaLookup d2 k).or (metaLookup d1 k) := by
  induction d2 generalizing d1 with
  | nil =>
    have h0 : metaLookup ([] : Meta) k = none := rfl
    rw [h0, Option.none_or]
    rfl
  | cons p rest ih =>
    have hstep : dictUpdate d1 (p :: rest) = dictUpdate (dictSet d1 p.1 p.2) rest := rfl
    have hnd' : (rest.map Prod.fst).Nodup := by
      simpa using List.Nodup.of_cons (by simpa using hnd)
    rw [hstep, ih _ hnd', metaLookup_dictSet, metaLookup_cons]
    by_cases hk : p.1 = k
    · have hnone : metaLookup rest k = none := by
        unfold metaLookup
        rw [Option.map_eq_none', List.find?_eq_none]
        intro x hx
        have hhd : p.1 ∉ rest.map Prod.fst := (List.nodup_cons.mp (by simpa using hnd)).1
        have hxk : x.1 ≠ p.1 := by
          intro he
          exact hhd (he ▸ List.mem_map_of_mem Prod.fst hx)
        intro hbe
        have hxe : x.1 = k := by simpa using hbe
        exact hxk (hxe.trans hk.symm)
      rw [hnone, if_pos hk, if_pos hk.symm]
      rfl
    · rw [if_neg hk, if_neg (fun he => hk he.symm)]

/-! ### C1: metadata precedence between constructor keywords and meta_dict -/

/-- Shared concrete environment for run-level witnesses: empty registry,
every load yields a non-NIfTI image, every copy reports `False`. -/
def sampleEnv : RunEnv :=
  { cwd := "/wd", registry := [], image := fun _ => LoadedImage.other,
    copyResult := fun _ => false }

/-- Config of the C1 scenario: constructor keyword `RepetitionTime=0.75`. -/
def cfgC1 : SinkConfig :=
  { allowed_entities := [], out_path_base := "templateflowreg",
    ctor_metadata := [("RepetitionTime", JVal.raw "0.75")] }

/-- Inputs of the C1 scenario: `meta_dict` carries `RepetitionTime=1.75`
and a dict-only key `Z`. -/
def insC1 : SinkInputs :=
  { base_directory := some "/out", check_hdr := false, compress := none,
    desc := "", extra_values := none, in_file := ["/in/x.nii"],
    keep_dtype := false,
    meta_dict := some [("RepetitionTime", JVal.raw "1.75"), ("Z", JVal.str "val")],
    source_file := "/data/sub-01_T1w.nii", space := "", suffix := "",
    entity_values := [], dyn_metadata := [] }

/-- C1 counterexample: with constructor keyword `RepetitionTime=0.75` and
`meta_dict={'RepetitionTime': '1.75', 'Z': 'val'}`, the merged metadata
and the written sidecar carry `0.75`, not the explicit dict's `1.75`:
the constructor keyword wins (src/datasink.py, line 178), refuting the
claim that the explicit dictionary overrides it. -/
theorem c1_counterexample :
    metaLookup (finalMetadata cfgC1 insC1) "RepetitionTime" = some (JVal.raw "0.75") ∧
    insC1.meta_dict = some [("RepetitionTime", JVal.raw "1.75"), ("Z", JVal.str "val")] ∧
    metaLookup [("RepetitionTime", JVal.raw "1.75"), ("Z", JVal.str "val")] "RepetitionTime" =
      some (JVal.raw "1.75") ∧
    JVal.raw "0.75" ≠ JVal.raw "1.75" ∧
    runInterface sampleEnv cfgC1 insC1 = Except.ok
      { out_file := ["/out/templateflowreg/sub-01/data/sub-01.nii"]
        compression := [false]
        fixed_hdr := [false]
        aborted := false
        out_meta := some ("/out/templateflowreg/sub-01/data/sub-01.json",
          "\x7b\n  \"RepetitionTime\": 0.75,\n  \"Z\": \"val\"\n\x7d") } := by
  refine ⟨rfl, rfl, rfl, by decide, ?_⟩
  rfl

/-- C1 (amended): on a key present both in the construction-time keyword
metadata and in the explicit `meta_dict`, the merged metadata (hence the
sidecar) holds the CONSTRUCTOR keyword's value — line 178 writes
`self._metadata` over the dict and the code comment says "inputs passed
in construction take priority"; keys present only in `meta_dict` are
preserved. Dynamically-set non-static traits (lines 277-280), which
would take a still higher priority, are assumed not to bind the key. -/
theorem c1_metadata_precedence (cfg : SinkConfig) (ins : SinkInputs) (md : Meta)
    (hmd : ins.meta_dict = some md)
    (hndc : (cfg.ctor_metadata.map Prod.fst).Nodup)
    (hndd : (ins.dyn_metadata.map Prod.fst).Nodup) :
    (∀ k v, metaLookup cfg.ctor_metadata k = some v →
      metaLookup ins.dyn_metadata k = none →
      metaLookup (finalMetadata cfg ins) k = some v) ∧
    (∀ k v, metaLookup md k = some v →
      metaLookup cfg.ctor_metadata k = none →
      metaLookup ins.dyn_metadata k = none →
      metaLookup (finalMetadata cfg ins) k = some v) := by
  have hfin : ∀ k, metaLookup (finalMetadata cfg ins) k =
      (metaLookup ins.dyn_metadata k).or
        ((metaLookup cfg.ctor_metadata k).or (metaLookup md k)) := by
    intro k
    unfold finalMetadata mergedCtorMeta
    rw [hmd, metaLookup_dictUpdate _ _ hndd, metaLookup_dictUpdate _ _ hndc]
  constructor
  · intro k v hc hd
    rw [hfin k, hd, hc, Option.none_or]
    rfl
  · intro k v hm hc hd
    rw [hfin k, hd, hc, hm, Option.none_or, Option.none_or]

/-- Witness for C1 (amended) on the concrete C1 scenario. -/
theorem c1_metadata_precedence_witness :
    metaLookup (finalMetadata cfgC1 insC1) "RepetitionTime" = some (JVal.raw "0.75") ∧
    metaLookup (finalMetadata cfgC1 insC1) "Z" = some (JVal.str "val") := by
  have h := c1_metadata_precedence cfgC1 insC1
    [("RepetitionTime", JVal.raw "1.75"), ("Z", JVal.str "val")]
    rfl (by decide) (by decide)
  exact ⟨h.1 "RepetitionTime" _ rfl rfl, h.2 "Z" _ rfl rfl rfl⟩

/-! ### Run inversion -/

lemma runInterface_eq_of_prepare {env : RunEnv} {cfg : SinkConfig} {ins : SinkInputs}
    {pd : PrepData} (hp : prepare env cfg ins = Except.ok pd) :
    runInterface env cfg ins =
      match runLoop (stepParams env ins pd) 0 pd.n
          { out := [], comp := [], fixed := List.replicate pd.n false } with
      | .error e => .error e
      | .ok (stopped, st) => .ok (assembleResults stopped st (finalMetadata cfg ins)) := by
  unfold runInterface
  rw [hp]

lemma runInterface_ok_inv {env : RunEnv} {cfg : SinkConfig} {ins : SinkInputs}
    {r : RunResults} (h : runInterface env cfg ins = Except.ok r) :
    ∃ pd stopped st,
      prepare env cfg ins = Except.ok pd ∧
      runLoop (stepParams env ins pd) 0 pd.n
        { out := [], comp := [], fixed := List.replicate pd.n false } = Except.ok (stopped, st) ∧
      r = assembleResults stopped st (finalMetadata cfg ins) := by
  cases hp : prepare env cfg ins with
  | error e =>
    have he : runInterface env cfg ins = Except.error e := by
      unfold runInterface
      rw [hp]
    rw [he] at h
    simp at h
  | ok pd =>
    have heq := runInterface_eq_of_prepare hp
    rw [heq] at h
    cases hl : runLoop (stepParams env ins pd) 0 pd.n
        { out := [], comp := [], fixed := List.replicate pd.n false } with
    | error e =>
      rw [hl] at h
      simp at h
    | ok pr =>
      obtain ⟨stopped, st⟩ := pr
      rw [hl] at h
      have h2 : Except.ok (assembleResults stopped st (finalMetadata cfg ins)) =
          Except.ok r := h
      injection h2 with h2
      exact ⟨pd, stopped, st, rfl, hl, h2.symm⟩

/-! ### C2: sidecar written iff exactly one output -/

/-- Configuration with no declared entities and no constructor metadata. -/
def cfgPlain : SinkConfig :=
  { allowed_entities := [], out_path_base := "templateflowreg", ctor_metadata := [] }

/-- The C1 inputs without any metadata source at all. -/
def insC2 : SinkInputs := { insC1 with meta_dict := none }

/-- C2 counterexample: a run producing exactly one output file but no
metadata from any source writes NO sidecar (the guard on line 281 of
src/datasink.py also requires the merged metadata to be non-empty), so
"sidecar iff exactly one output" fails in the only-if-to-if direction. -/
theorem c2_counterexample :
    ∃ r, runInterface sampleEnv cfgPlain insC2 = Except.ok r ∧
      r.out_file.length = 1 ∧ r.out_meta = none := by
  refine ⟨{ out_file := ["/out/templateflowreg/sub-01/data/sub-01.nii"]
            compression := [false]
            fixed_hdr := [false]
            aborted := false
            out_meta := none }, rfl, rfl, rfl⟩

/-- C2 (amended): a sidecar is written iff the early header-check return
did not abort the run, exactly one output file was recorded, and the
merged metadata is non-empty; when written it sits next to the single
output file, named by the output's stem plus `.json`, and its text is
the 2-space-indented, key-sorted JSON serialization of the merged
metadata (src/datasink.py, lines 246-251 and 276-285). -/
theorem c2_sidecar_iff (env : RunEnv) (cfg : SinkConfig) (ins : SinkInputs)
    (r : RunResults) (h : runInterface env cfg ins = Except.ok r) :
    (r.out_meta.isSome = true ↔
      (r.aborted = false ∧ r.out_file.length = 1 ∧ finalMetadata cfg ins ≠ [])) ∧
    (∀ p t, r.out_meta = some (p, t) →
      (∃ f, r.out_file = [f] ∧ p = sidecarPath f) ∧ t = pyDumps (finalMetadata cfg ins)) := by
  obtain ⟨pd, stopped, st, hp, hl, hr⟩ := runInterface_ok_inv h
  subst hr
  constructor
  · cases stopped with
    | true => simp [assembleResults]
    | false =>
      rcases hout : st.out with _ | ⟨f, tl⟩
      · simp [assembleResults, hout]
      · rcases tl with _ | ⟨g, tl2⟩
        · by_cases hm : (finalMetadata cfg ins).isEmpty
          · have hme : finalMetadata cfg ins = [] := List.isEmpty_iff.mp hm
            simp [assembleResults, hout, hm, hme]
          · have hme : finalMetadata cfg ins ≠ [] := by
              simpa [List.isEmpty_iff] using hm
            simp [assembleResults, hout, hm, hme]
        · simp [assembleResults, hout]
  · intro p t hpt
    cases stopped with
    | true => simp [assembleResults] at hpt
    | false =>
      rcases hout : st.out with _ | ⟨f, tl⟩
      · simp [assembleResults, hout] at hpt
      · rcases tl with _ | ⟨g, tl2⟩
        · by_cases hm : (finalMetadata cfg ins).isEmpty
          · simp [assembleResults, hout, hm] at hpt
          · simp [assembleResults, hout, hm] at hpt
            obtain ⟨hp1, ht1⟩ := hpt
            exact ⟨⟨f, by simp [assembleResults, hout], hp1.symm⟩, ht1.symm⟩
        · simp [assembleResults, hout] at hpt

/-- The results of the C1 run, used to instantiate C2's theorem. -/
def resC1 : RunResults :=
  { out_file := ["/out/templateflowreg/sub-01/data/sub-01.nii"]
    compression := [false]
    fixed_hdr := [false]
    aborted := false
    out_meta := some ("/out/templateflowreg/sub-01/data/sub-01.json",
      "\x7b\n  \"RepetitionTime\": 0.75,\n  \"Z\": \"val\"\n\x7d") }

/-- Witness for C2 (amended) on a concrete run that does write a sidecar. -/
theorem c2_sidecar_iff_witness :
    resC1.aborted = false ∧ resC1.out_file.length = 1 ∧ finalMetadata cfgC1 insC1 ≠ [] := by
  have h := c2_sidecar_iff sampleEnv cfgC1 insC1 resC1 rfl
  exact h.1.mp rfl

/-! ### Loop lemmas -/

lemma runLoop_succ (P : StepParams) (i k : Nat) (st : LoopState) :
    runLoop P i (k + 1) st =
      match P.nameAt i with
      | .error e => .error e
      | .ok nm =>
        if (fileStep P i nm).2 then Except.ok (true, pushStep P i nm st)
        else runLoop P (i + 1) k (pushStep P i nm st) := by
  rfl

lemma runLoop_stop (P : StepParams) (i k : Nat) (st : LoopState) (nm : String)
    (hnm : P.nameAt i = Except.ok nm) (hs : (fileStep P i nm).2 = true) :
    runLoop P i (k + 1) st = Except.ok (true, pushStep P i nm st) := by
  rw [runLoop_succ, hnm]
  simp [hs]

lemma runLoop_skip (P : StepParams) : ∀ (d i k : Nat) (st : LoopState),
    (∀ j, j < d → (P.nameAt (i + j)).isOk = true ∧
      (fileStep P (i + j) (nameValue P (i + j))).2 = false) →
    runLoop P i (d + k) st = runLoop P (i + d) k (advance P i d st) := by
  intro d
  induction d with
  | zero =>
    intro i k st _
    simp [advance]
  | succ d ih =>
    intro i k st h
    obtain ⟨hok, hstop⟩ := h 0 (Nat.succ_pos d)
    rw [Nat.add_zero] at hok hstop
    obtain ⟨nm, hnm⟩ : ∃ nm, P.nameAt i = Except.ok nm := by
      cases he : P.nameAt i with
      | ok nm => exact ⟨nm, rfl⟩
      | error e =>
        rw [he] at hok
        simp [Except.isOk, Except.toBool] at hok
    have hnv : nameValue P i = nm := by
      unfold nameValue
      rw [hnm]
    have harith : d + 1 + k = (d + k) + 1 := by omega
    rw [harith]
    have hstep : runLoop P i (d + k + 1) st = runLoop P (i + 1) (d + k) (pushStep P i nm st) := by
      rw [runLoop_succ, hnm]
      rw [hnv] at hstop
      simp [hstop]
    rw [hstep]
    have hh : ∀ j, j < d → (P.nameAt (i + 1 + j)).isOk = true ∧
        (fileStep P (i + 1 + j) (nameValue P (i + 1 + j))).2 = false := by
      intro j hj
      have hj2 := h (j + 1) (by omega)
      have ha : i + (j + 1) = i + 1 + j := by omega
      rw [ha] at hj2
      exact hj2
    rw [ih (i + 1) k (pushStep P i nm st) hh]
    have ha2 : i + 1 + d = i + (d + 1) := by omega
    have hadv : advance P i (d + 1) st = advance P (i + 1) d (pushStep P i nm st) := by
      simp only [advance]
      rw [hnv]
    rw [ha2, hadv]

lemma advance_out_length (P : StepParams) : ∀ (d i : Nat) (st : LoopState),
    (advance P i d st).out.length = st.out.length + d := by
  intro d
  induction d with
  | zero =>
    intro i st
    simp [advance]
  | succ d ih =>
    intro i st
    simp only [advance]
    rw [ih]
    simp [pushStep]
    omega

lemma advance_fixed_length (P : StepParams) : ∀ (d i : Nat) (st : LoopState),
    (advance P i d st).fixed.length = st.fixed.length := by
  intro d
  induction d with
  | zero =>
    intro i st
    simp [advance]
  | succ d ih =>
    intro i st
    simp only [advance]
    rw [ih]
    simp [pushStep]

lemma advance_fixed_outside (P : StepParams) : ∀ (d i : Nat) (st : LoopState) (j : Nat),
    (j < i ∨ i + d ≤ j) →
    (advance P i d st).fixed[j]? = st.fixed[j]? := by
  intro d
  induction d with
  | zero =>
    intro i st j _
    simp [advance]
  | succ d ih =>
    intro i st j hj
    simp only [advance]
    rw [ih (i + 1) _ j (by omega)]
    simp only [pushStep]
    rw [List.getElem?_set_ne (by omega : i ≠ j)]

lemma runLoop_out (P : StepParams) : ∀ (k i : Nat) (st : LoopState) (b : Bool)
    (st2 : LoopState), runLoop P i k st = Except.ok (b, st2) →
    st.out <+: st2.out ∧
    ∀ j nm, st2.out[st.out.length + j]? = some nm → P.nameAt (i + j) = Except.ok nm := by
  intro k
  induction k with
  | zero =>
    intro i st b st2 h
    have h2 : Except.ok ((false : Bool), st) = Except.ok (b, st2) := h
    injection h2 with h2
    injection h2 with hb hst
    subst hst
    constructor
    · exact List.prefix_refl _
    · intro j nm hj
      rw [List.getElem?_eq_none (by omega : st.out.length ≤ st.out.length + j)] at hj
      simp at hj
  | succ k ih =>
    intro i st b st2 h
    rw [runLoop_succ] at h
    cases hnm : P.nameAt i with
    | error e =>
      rw [hnm] at h
      simp at h
    | ok nm =>
      rw [hnm] at h
      have hred : (if (fileStep P i nm).2 then Except.ok (true, pushStep P i nm st)
          else runLoop P (i + 1) k (pushStep P i nm st)) = Except.ok (b, st2) := h
      by_cases hstop : (fileStep P i nm).2 = true
      · rw [if_pos hstop] at hred
        have h2 : Except.ok ((true : Bool), pushStep P i nm st) = Except.ok (b, st2) := hred
        injection h2 with h2
        injection h2 with hb hst
        subst hst
        constructor
        · exact List.prefix_append _ _
        · intro j nm2 hj
          match j with
          | 0 =>
            rw [Nat.add_zero] at hj ⊢
            have hval : (st.out ++ [nm])[st.out.length]? = some nm :=
              List.getElem?_concat_length _ _
            have hj2 : (st.out ++ [nm])[st.out.length]? = some nm2 := hj
            rw [hval] at hj2
            injection hj2 with hj2
            rw [hnm, hj2]
          | j2 + 1 =>
            exfalso
            have hj2 : (st.out ++ [nm])[st.out.length + (j2 + 1)]? = some nm2 := hj
            rw [List.getElem?_eq_none
              (by rw [List.length_append]
                  simp only [List.length_cons, List.length_nil]
                  omega)] at hj2
            simp at hj2
      · rw [if_neg hstop] at hred
        obtain ⟨hpre, hidx⟩ := ih (i + 1) (pushStep P i nm st) b st2 hred
        have hpush : (pushStep P i nm st).out = st.out ++ [nm] := rfl
        constructor
        · refine (List.prefix_append st.out [nm]).trans ?_
          rw [← hpush]
          exact hpre
        · intro j nm2 hj
          match j with
          | 0 =>
            rw [Nat.add_zero] at hj ⊢
            obtain ⟨tail, htail⟩ := hpre
            have hlen : st.out.length < (pushStep P i nm st).out.length := by
              rw [hpush, List.length_append]
              simp
            have hval : st2.out[st.out.length]? = some nm := by
              rw [← htail, List.getElem?_append, if_pos hlen, hpush,
                List.getElem?_concat_length]
            rw [hval] at hj
            injection hj with hj
            rw [hnm, hj]
          | j2 + 1 =>
            have harith : st.out.length + (j2 + 1) = (pushStep P i nm st).out.length + j2 := by
              rw [hpush, List.length_append]
              simp
              omega
            rw [harith] at hj
            have hres := hidx j2 nm2 hj
            have ha : i + 1 + j2 = i + (j2 + 1) := by omega
            rw [← ha]
            exact hres

/-! ### C3: short-circuit on an unrecognized image type -/

/-- C3: with header checking on, when the image loaded for the file at
index `i` is not NIfTI-1/NIfTI-2 (e.g. CIfTI-2 behind a `.nii` name) and
every earlier iteration completed without stopping, the run returns
normally (`Except.ok`, no exception), the file's `fixed_hdr` flag stays
`False` (nothing is done to it), and the loop is abandoned: exactly
`i + 1` files were processed and every file from index `i` on keeps a
`False` flag (src/datasink.py, lines 246-251). -/
theorem c3_short_circuit (env : RunEnv) (cfg : SinkConfig) (ins : SinkInputs)
    (pd : PrepData) (i : Nat) (nmi : String)
    (hp : prepare env cfg ins = Except.ok pd)
    (hi : i < pd.n)
    (hpre : ∀ j, j < i → ((stepParams env ins pd).nameAt j).isOk = true ∧
      (fileStep (stepParams env ins pd) j
        (nameValue (stepParams env ins pd) j)).2 = false)
    (hnm : (stepParams env ins pd).nameAt i = Except.ok nmi)
    (hch : ins.check_hdr = true)
    (hnii : endsNii nmi = true)
    (himg : env.image i = LoadedImage.other) :
    ∃ r, runInterface env cfg ins = Except.ok r ∧
      r.aborted = true ∧
      r.out_file.length = i + 1 ∧
      r.fixed_hdr.length = pd.n ∧
      ∀ j, i ≤ j → r.fixed_hdr[j]? = if j < pd.n then some false else none := by
  set P := stepParams env ins pd with hP
  have hstep : fileStep P i nmi = (false, true) := by
    simp [fileStep, hP, stepParams, hch, hnii, himg]
  set st0 : LoopState := { out := [], comp := [], fixed := List.replicate pd.n false }
    with hst0
  have hskip := runLoop_skip P i 0 (pd.n - i) st0 (fun j hj => by
    rw [Nat.zero_add]
    exact hpre j hj)
  have hsplit : pd.n = i + (pd.n - i) := by omega
  have hm : pd.n - i = (pd.n - i - 1) + 1 := by omega
  have hloop : runLoop P 0 pd.n st0 =
      Except.ok (true, pushStep P i nmi (advance P 0 i st0)) := by
    conv_lhs => rw [hsplit]
    rw [hskip, Nat.zero_add]
    conv_lhs => rw [hm]
    exact runLoop_stop P i (pd.n - i - 1) (advance P 0 i st0) nmi hnm (by rw [hstep])
  refine ⟨assembleResults true (pushStep P i nmi (advance P 0 i st0))
    (finalMetadata cfg ins), ?_, rfl, ?_, ?_, ?_⟩
  · have hgoal : runInterface env cfg ins =
        match runLoop P 0 pd.n st0 with
        | .error e => .error e
        | .ok (stopped, st) => .ok (assembleResults stopped st (finalMetadata cfg ins)) :=
      runInterface_eq_of_prepare hp
    rw [hgoal, hloop]
  · show (pushStep P i nmi (advance P 0 i st0)).out.length = i + 1
    have hadv := advance_out_length P i 0 st0
    simp only [pushStep, List.length_append]
    rw [hadv, hst0]
    simp
  · show (pushStep P i nmi (advance P 0 i st0)).fixed.length = pd.n
    have hadv := advance_fixed_length P i 0 st0
    simp only [pushStep, List.length_set]
    rw [hadv, hst0]
    simp
  · intro j hij
    show (pushStep P i nmi (advance P 0 i st0)).fixed[j]? = _
    have hfx : (fileStep P i nmi).1 = false := by rw [hstep]
    simp only [pushStep, hfx]
    have hlen : (advance P 0 i st0).fixed.length = pd.n := by
      rw [advance_fixed_length P i 0 st0, hst0]
      simp
    by_cases hji : j = i
    · rw [hji, List.getElem?_set, if_pos rfl, hlen, if_pos hi]
    · rw [List.getElem?_set_ne (fun he => hji he.symm)]
      rw [advance_fixed_outside P i 0 st0 j (Or.inr (by omega))]
      rw [hst0]
      exact List.getElem?_replicate

/-- Inputs of the C3 scenario: header checking on, one `.nii`-named
payload whose loaded image is not NIfTI. -/
def insC3 : SinkInputs := { insC2 with check_hdr := true }

/-- The prepared data of the C3 scenario. -/
def pdC3 : PrepData :=
  { n := 1, multi := false, extra_values := none,
    base_fname := "/out/templateflowreg/sub-01/data/sub-01",
    spaceSeg := "", descSeg := "", entsSeg := "", suffixSeg := "", dtypeSeg := "",
    ext := ".nii" }

/-- Witness for C3 on a concrete run whose single image loads as CIfTI. -/
theorem c3_short_circuit_witness :
    ∃ r, runInterface sampleEnv cfgPlain insC3 = Except.ok r ∧ r.aborted = true ∧
      r.out_file.length = 1 := by
  obtain ⟨r, h1, h2, h3, -⟩ := c3_short_circuit sampleEnv cfgPlain insC3 pdC3 0
    "/out/templateflowreg/sub-01/data/sub-01.nii" rfl (by decide)
    (fun j hj => absurd hj (Nat.not_lt_zero j)) rfl rfl (by decide) rfl
  exact ⟨r, h1, h2, h3⟩

/-! ### Facts read off a successful prepare -/

lemma prepare_ok_facts {env : RunEnv} {cfg : SinkConfig} {ins : SinkInputs} {pd : PrepData}
    (hp : prepare env cfg ins = Except.ok pd) :
    pd.n = ins.in_file.length ∧
    pd.extra_values = ins.extra_values ∧
    pd.multi = (decide (1 < ins.in_file.length) && ins.extra_values.isNone) ∧
    pd.ext = resolveExt (splitext (ins.in_file.headD "")).2 ins.compress ∧
    pd.entsSeg = entitySegments cfg.allowed_entities ins.entity_values ∧
    pd.spaceSeg = segSpace ins.space ∧
    pd.descSeg = segDesc ins.desc ∧
    pd.suffixSeg = segSuffix ins.suffix := by
  unfold prepare at hp
  dsimp only at hp
  cases h1 : rsplitLastChar '_' ((splitext ins.source_file).1).data with
  | none =>
    rw [h1] at hp
    exact absurd (show (Except.error RunError.valueError : Except RunError PrepData) =
      Except.ok pd from hp) (by simp)
  | some sd =>
    obtain ⟨sf, dt⟩ := sd
    rw [h1] at hp
    dsimp only at hp
    cases h2 : ins.in_file.head? with
    | none =>
      rw [h2] at hp
      exact absurd (show (Except.error RunError.indexError : Except RunError PrepData) =
        Except.ok pd from hp) (by simp)
    | some f0 =>
      rw [h2] at hp
      dsimp only at hp
      cases h3 : bidsNameSearch (String.mk sf) with
      | none =>
        rw [h3] at hp
        exact absurd (show (Except.error RunError.attributeError : Except RunError PrepData) =
          Except.ok pd from hp) (by simp)
      | some q =>
        obtain ⟨subj, ses⟩ := q
        rw [h3] at hp
        dsimp only at hp
        injection hp with hx
        rw [← hx]
        refine ⟨rfl, rfl, rfl, ?_, rfl, rfl, rfl, rfl⟩
        have hf0 : ins.in_file.headD "" = f0 := by
          cases hif : ins.in_file with
          | nil =>
            rw [hif] at h2
            simp at h2
          | cons a l =>
            rw [hif] at h2
            simp at h2
            rw [h2]
            rfl
        rw [hf0]

/-! ### C6: zero-padded index placement for multiple payload files -/

/-- C6: with more than one payload file and no `extra_values`, every
recorded output name is the common concatenation of the base name,
space/desc/entity/suffix segments, then the four-digit zero-padded
positional index, then the datatype segment and the resolved extension;
so the names differ only in the index (src/datasink.py, lines 217-219
and 229-242). -/
theorem c6_indexed_names (env : RunEnv) (cfg : SinkConfig) (ins : SinkInputs)
    (pd : PrepData) (r : RunResults)
    (hp : prepare env cfg ins = Except.ok pd)
    (hr : runInterface env cfg ins = Except.ok r)
    (hlen : 1 < ins.in_file.length)
    (hex : ins.extra_values = none) :
    ∀ i nm, r.out_file[i]? = some nm →
      nm = pd.base_fname ++ pd.spaceSeg ++ pd.descSeg ++ pd.entsSeg ++ pd.suffixSeg ++
        pad4 i ++ pd.dtypeSeg ++ pd.ext := by
  obtain ⟨pd2, stopped, st, hp2, hl, hres⟩ := runInterface_ok_inv hr
  have hpd : pd2 = pd := by
    rw [hp] at hp2
    injection hp2 with hpd
    exact hpd.symm
  subst hpd
  have hout : r.out_file = st.out := by
    rw [hres]
    rfl
  obtain ⟨-, hidx⟩ := runLoop_out (stepParams env ins pd2) pd2.n 0 _ stopped st hl
  intro i nm hi
  have hname := hidx i nm (by simpa using (hout ▸ hi))
  rw [Nat.zero_add] at hname
  obtain ⟨-, hev, hmulti, -⟩ := prepare_ok_facts hp
  have hpde : pd2.extra_values = none := hev.trans hex
  have hmt : pd2.multi = true := by
    rw [hmulti, hex]
    simp [hlen]
  have hname2 : pd2.nameAt i = Except.ok nm := hname
  have hcomp : pd2.nameAt i = Except.ok (pd2.base_fname ++ pd2.spaceSeg ++ pd2.descSeg ++
      pd2.entsSeg ++ pd2.suffixSeg ++ pad4 i ++ pd2.dtypeSeg ++ pd2.ext) := by
    simp [PrepData.nameAt, nameFor, hpde, hmt]
  rw [hcomp] at hname2
  injection hname2 with hname2
  exact hname2.symm

/-- Inputs of the C6 scenario: two payload files, suffix `bold`. -/
def insC6 : SinkInputs := { insC2 with in_file := ["/in/a.nii", "/in/b.gii"], suffix := "bold" }

/-- The prepared data of the C6 scenario. -/
def pdC6 : PrepData :=
  { n := 2, multi := true, extra_values := none,
    base_fname := "/out/templateflowreg/sub-01/data/sub-01",
    spaceSeg := "", descSeg := "", entsSeg := "", suffixSeg := "_bold", dtypeSeg := "",
    ext := ".nii" }

/-- The results of the C6 scenario. -/
def resC6 : RunResults :=
  { out_file := ["/out/templateflowreg/sub-01/data/sub-01_bold0000.nii",
                 "/out/templateflowreg/sub-01/data/sub-01_bold0001.nii"]
    compression := [false, false]
    fixed_hdr := [false, false]
    aborted := false
    out_meta := none }

/-- Witness for C6 on a concrete two-file run. -/
theorem c6_indexed_names_witness :
    "/out/templateflowreg/sub-01/data/sub-01_bold0000.nii" =
      pdC6.base_fname ++ pdC6.spaceSeg ++ pdC6.descSeg ++ pdC6.entsSeg ++ pdC6.suffixSeg ++
        pad4 0 ++ pdC6.dtypeSeg ++ pdC6.ext ∧
    "/out/templateflowreg/sub-01/data/sub-01_bold0001.nii" =
      pdC6.base_fname ++ pdC6.spaceSeg ++ pdC6.descSeg ++ pdC6.entsSeg ++ pdC6.suffixSeg ++
        pad4 1 ++ pdC6.dtypeSeg ++ pdC6.ext := by
  have h := c6_indexed_names sampleEnv cfgPlain insC6 pdC6 resC6 rfl rfl (by decide) rfl
  exact ⟨h 0 _ rfl, h 1 _ rfl⟩

/-! ### C10: the resolved extension comes from the first payload file -/

lemma PrepData.nameAt_ok_suffix {pd : PrepData} {i : Nat} {nm : String}
    (h : pd.nameAt i = Except.ok nm) : ∃ pre, nm = pre ++ pd.ext := by
  unfold PrepData.nameAt nameFor at h
  cases hev : pd.extra_values with
  | some l =>
    rw [hev] at h
    dsimp only at h
    cases hl : l[i]? with
    | some v =>
      rw [hl] at h
      have h2 : Except.ok (pd.base_fname ++ pd.spaceSeg ++ pd.descSeg ++ pd.entsSeg ++
          "_" ++ v ++ pd.suffixSeg ++ pd.dtypeSeg ++ pd.ext) = Except.ok nm := h
      injection h2 with h2
      exact ⟨_, h2.symm⟩
    | none =>
      rw [hl] at h
      exact absurd (show (Except.error RunError.indexError : Except RunError String) =
        Except.ok nm from h) (by simp)
  | none =>
    rw [hev] at h
    dsimp only at h
    have hif : (if pd.multi = true then
        Except.ok (pd.base_fname ++ pd.spaceSeg ++ pd.descSeg ++ pd.entsSeg ++
          pd.suffixSeg ++ pad4 i ++ pd.dtypeSeg ++ pd.ext)
      else Except.ok (pd.base_fname ++ pd.spaceSeg ++ pd.descSeg ++ pd.entsSeg ++
          pd.suffixSeg ++ pd.dtypeSeg ++ pd.ext)) = Except.ok nm := h
    by_cases hm : pd.multi = true
    · rw [if_pos hm] at hif
      injection hif with h2
      exact ⟨_, h2.symm⟩
    · rw [if_neg hm] at hif
      injection hif with h2
      exact ⟨_, h2.symm⟩

/-- C10: the output names are computed from the FIRST payload file's
extension only — replacing the remaining payload files by any others (in
equal number) leaves the whole result unchanged, and every recorded
output name ends in the first file's compression-resolved extension
(src/datasink.py, lines 183-187 and 229-242). -/
theorem c10_first_file_extension (env : RunEnv) (cfg : SinkConfig) (ins : SinkInputs)
    (f : String) (t1 t2 : List String) (hlen : t1.length = t2.length) :
    runInterface env cfg { ins with in_file := f :: t1 } =
      runInterface env cfg { ins with in_file := f :: t2 } ∧
    (∀ (r : RunResults) (i : Nat) (nm : String),
      runInterface env cfg { ins with in_file := f :: t1 } = Except.ok r →
      r.out_file[i]? = some nm →
      ∃ pre, nm = pre ++ resolveExt (splitext f).2 ins.compress) := by
  constructor
  · have hprep : prepare env cfg { ins with in_file := f :: t1 } =
        prepare env cfg { ins with in_file := f :: t2 } := by
      unfold prepare
      dsimp only
      simp only [List.length_cons, List.head?_cons]
      simp only [hlen]
    unfold runInterface
    rw [hprep]
    cases hp2 : prepare env cfg { ins with in_file := f :: t2 } with
    | error e => rfl
    | ok pd =>
      have hsp : stepParams env { ins with in_file := f :: t1 } pd =
          stepParams env { ins with in_file := f :: t2 } pd := rfl
      have hfm : finalMetadata cfg { ins with in_file := f :: t1 } =
          finalMetadata cfg { ins with in_file := f :: t2 } := rfl
      dsimp only
      rw [hsp, hfm]
  · intro r i nm hr hi
    obtain ⟨pd, stopped, st, hp, hl, hres⟩ := runInterface_ok_inv hr
    obtain ⟨-, -, -, hext, -⟩ := prepare_ok_facts hp
    have hout : r.out_file = st.out := by
      rw [hres]
      rfl
    obtain ⟨-, hidx⟩ := runLoop_out (stepParams env { ins with in_file := f :: t1 } pd)
      pd.n 0 _ stopped st hl
    have hname := hidx i nm (by simpa using (hout ▸ hi))
    rw [Nat.zero_add] at hname
    have hname2 : pd.nameAt i = Except.ok nm := hname
    obtain ⟨pre, hpre⟩ := PrepData.nameAt_ok_suffix hname2
    refine ⟨pre, ?_⟩
    have hf : ({ ins with in_file := f :: t1 } : SinkInputs).in_file.headD "" = f := rfl
    have hcompress : ({ ins with in_file := f :: t1 } : SinkInputs).compress =
      ins.compress := rfl
    rw [hf, hcompress] at hext
    rw [hpre, hext]

/-- The results of the C10 scenario (two payload files with unrelated
second-file extensions). -/
def resC10 : RunResults :=
  { out_file := ["/out/templateflowreg/sub-01/data/sub-010000.nii",
                 "/out/templateflowreg/sub-01/data/sub-010001.nii"]
    compression := [false, false]
    fixed_hdr := [false, false]
    aborted := false
    out_meta := none }

/-- Witness for C10: swapping the second payload file for one with a
different extension leaves the run unchanged, and the first output name
ends in the first file's resolved extension. -/
theorem c10_first_file_extension_witness :
    runInterface sampleEnv cfgPlain { insC2 with in_file := ["/in/x.nii", "/in/y.gii"] } =
      runInterface sampleEnv cfgPlain
        { insC2 with in_file := ["/in/x.nii", "/in/z.dtseries.nii"] } ∧
    ∃ pre, "/out/templateflowreg/sub-01/data/sub-010000.nii" =
      pre ++ resolveExt (splitext "/in/x.nii").2 insC2.compress := by
  have h := c10_first_file_extension sampleEnv cfgPlain insC2 "/in/x.nii"
    ["/in/y.gii"] ["/in/z.dtseries.nii"] rfl
  exact ⟨h.1, h.2 resC10 0 _ rfl rfl⟩

/-! ### C8: failure when no subject label can be matched -/

lemma takeAlnum_cons (c : Char) (cs : List Char) :
    takeAlnum (c :: cs) = if isAlnum c then (c :: (takeAlnum cs).1, (takeAlnum cs).2)
      else ([], c :: cs) := by
  rcases htc : takeAlnum cs with ⟨r, rest⟩
  simp [takeAlnum, htc]

lemma rsplitLastChar_eq {c : Char} : ∀ {l a b : List Char},
    rsplitLastChar c l = some (a, b) → l = a ++ c :: b := by
  intro l
  induction l with
  | nil =>
    intro a b h
    simp [rsplitLastChar] at h
  | cons x xs ih =>
    intro a b h
    unfold rsplitLastChar at h
    cases hr : rsplitLastChar c xs with
    | some p =>
      obtain ⟨a0, b0⟩ := p
      rw [hr] at h
      have h2 : (some (x :: a0, b0) : Option (List Char × List Char)) = some (a, b) := h
      injection h2 with h2
      injection h2 with ha hb
      subst ha
      subst hb
      simp [ih hr]
    | none =>
      rw [hr] at h
      by_cases hx : x = c
      · rw [if_pos hx] at h
        have h2 : (some (([] : List Char), xs) : Option (List Char × List Char)) =
          some (a, b) := h
        injection h2 with h2
        injection h2 with ha hb
        subst ha
        subst hb
        simp [hx]
      · rw [if_neg hx] at h
        simp at h

lemma matchSubject_extend {a : List Char} {x : List Char × List Char}
    (h : matchSubject a = some x) (b : List Char) :
    (matchSubject (a ++ '_' :: b)).isSome = true := by
  unfold matchSubject at h ⊢
  by_cases hc : a.take 4 = ['s', 'u', 'b', '-'] ∨ a.take 4 = ['t', 'p', 'l', '-']
  · rw [if_pos hc] at h
    have hlen : 4 ≤ a.length := by
      rcases hc with hc | hc <;>
      · have hl := congrArg List.length hc
        rw [List.length_take] at hl
        simp at hl
        omega
    have htake : (a ++ '_' :: b).take 4 = a.take 4 := by
      rw [List.take_append_eq_append_take, show 4 - a.length = 0 from by omega]
      simp
    have hdrop : (a ++ '_' :: b).drop 4 = a.drop 4 ++ '_' :: b := by
      rw [List.drop_append_eq_append_drop, show 4 - a.length = 0 from by omega]
      simp
    rw [if_pos (by rw [htake]; exact hc), hdrop]
    unfold subjTail at h ⊢
    by_cases he : (takeAlnum (a.drop 4)).1.isEmpty
    · rw [if_pos he] at h
      simp at h
    · have hne : (takeAlnum (a.drop 4 ++ '_' :: b)).1.isEmpty = false := by
        cases hd : a.drop 4 with
        | nil =>
          rw [hd] at he
          simp [takeAlnum] at he
        | cons c0 cs =>
          rw [hd] at he
          rw [takeAlnum_cons] at he
          by_cases hal : isAlnum c0
          · rw [List.cons_append, takeAlnum_cons, if_pos hal]
            simp
          · rw [if_neg hal] at he
            simp at he
      rw [hne]
      simp
  · rw [if_neg hc] at h
    simp at h

/-- C8: when the extension-stripped base name of the source reference
path does not start with a matchable subject token (`sub-`/`tpl-` plus at
least one alphanumeric, the anchored `BIDS_NAME` subject group), the
invocation fails with an exception and produces no results at all:
either the datatype split already raises (`ValueError`, line 182) or the
`BIDS_NAME` search returns `None` and `m.groupdict()` raises (the
parse failure the spec calls ParseError; lines 189, 199). -/
theorem c8_parse_failure (env : RunEnv) (cfg : SinkConfig) (ins : SinkInputs)
    (h : startsWithSubject (splitext ins.source_file).1 = false) :
    ∃ e, runInterface env cfg ins = Except.error e := by
  suffices hs : ∃ e, prepare env cfg ins = Except.error e by
    obtain ⟨e, he⟩ := hs
    refine ⟨e, ?_⟩
    unfold runInterface
    rw [he]
  unfold prepare
  dsimp only
  cases hr : rsplitLastChar '_' ((splitext ins.source_file).1).data with
  | none => exact ⟨RunError.valueError, rfl⟩
  | some sd =>
    obtain ⟨sf, dt⟩ := sd
    dsimp only
    have hb : bidsNameSearch (String.mk sf) = none := by
      unfold bidsNameSearch
      cases hms : matchSubject (String.mk sf).data with
      | none => rfl
      | some x =>
        exfalso
        have hdata : ((splitext ins.source_file).1).data = sf ++ '_' :: dt :=
          rsplitLastChar_eq hr
        have hsome : (matchSubject (sf ++ '_' :: dt)).isSome = true :=
          matchSubject_extend hms dt
        unfold startsWithSubject at h
        rw [hdata] at h
        rw [h] at hsome
        simp at hsome
    cases hh : ins.in_file.head? with
    | none => exact ⟨RunError.indexError, rfl⟩
    | some f0 =>
      refine ⟨RunError.attributeError, ?_⟩
      dsimp only
      rw [hb]

/-- Inputs of the C8 scenario: a source reference with no subject token. -/
def insC8 : SinkInputs := { insC2 with source_file := "/data/foo_bar.nii" }

/-- Witness for C8 on a concrete unmatchable source reference. -/
theorem c8_parse_failure_witness :
    ∃ e, runInterface sampleEnv cfgPlain insC8 = Except.error e :=
  c8_parse_failure sampleEnv cfgPlain insC8 (by decide)

/-! ### C9: determinism and declared entity order -/

/-- C9: the destination names do not depend on the iteration order of
the entity-value store — any two stores with the same key lookups give
byte-identical run results (in particular the run is a function of its
inputs, so identical inputs give identical paths) — and the allowed
extra labels are laid out by joining over the caller-declared
`allowed_entities` list in its declared order
(src/datasink.py, lines 208-215). -/
theorem c9_determinism_order (env : RunEnv) (cfg : SinkConfig) (ins : SinkInputs)
    (vals1 vals2 : List (String × String))
    (h : ∀ k, lookupStr vals1 k = lookupStr vals2 k) :
    runInterface env cfg { ins with entity_values := vals1 } =
      runInterface env cfg { ins with entity_values := vals2 } ∧
    entitySegments cfg.allowed_entities vals1 =
      String.join (cfg.allowed_entities.map (fun k =>
        match lookupStr vals1 k with
        | some v => "_" ++ k ++ "-" ++ v
        | none => "")) := by
  have hseg : entitySegments cfg.allowed_entities vals1 =
      entitySegments cfg.allowed_entities vals2 := by
    unfold entitySegments
    congr 1
    apply List.map_congr_left
    intro a _
    rw [h a]
  refine ⟨?_, rfl⟩
  have hprep : prepare env cfg { ins with entity_values := vals1 } =
      prepare env cfg { ins with entity_values := vals2 } := by
    unfold prepare
    dsimp only
    simp only [hseg]
  unfold runInterface
  rw [hprep]
  cases hp2 : prepare env cfg { ins with entity_values := vals2 } with
  | error e => rfl
  | ok pd =>
    have hsp : stepParams env { ins with entity_values := vals1 } pd =
        stepParams env { ins with entity_values := vals2 } pd := rfl
    have hfm : finalMetadata cfg { ins with entity_values := vals1 } =
        finalMetadata cfg { ins with entity_values := vals2 } := rfl
    dsimp only
    rw [hsp, hfm]

/-- Config of the C9 scenario: entities declared in the order
`from`, `to`. -/
def cfgC9 : SinkConfig := { cfgPlain with allowed_entities := ["from", "to"] }

/-- Inputs of the C9 scenario. -/
def insC9 : SinkInputs := { insC2 with entity_values := [("to", "native"), ("from", "orig")] }

/-- Witness for C9: permuting the entity-value store leaves the run
unchanged, and the segments follow the declared order. -/
theorem c9_determinism_order_witness :
    runInterface sampleEnv cfgC9
        { insC9 with entity_values := [("to", "native"), ("from", "orig")] } =
      runInterface sampleEnv cfgC9
        { insC9 with entity_values := [("from", "orig"), ("to", "native")] } ∧
    entitySegments cfgC9.allowed_entities [("to", "native"), ("from", "orig")] =
      String.join (cfgC9.allowed_entities.map (fun k =>
        match lookupStr [("to", "native"), ("from", "orig")] k with
        | some v => "_" ++ k ++ "-" ++ v
        | none => "")) := by
  exact c9_determinism_order sampleEnv cfgC9 insC9
    [("to", "native"), ("from", "orig")] [("from", "orig"), ("to", "native")]
    (fun k => by
      by_cases h1 : k = "to"
      · subst h1
        rfl
      · by_cases h2 : k = "from"
        · subst h2
          rfl
        · unfold lookupStr
          rw [List.find?_cons_of_neg _ (by simp only [beq_iff_eq]; exact fun he => h1 he.symm),
            List.find?_cons_of_neg _ (by simp only [beq_iff_eq]; exact fun he => h2 he.symm),
            List.find?_cons_of_neg _ (by simp only [beq_iff_eq]; exact fun he => h2 he.symm),
            List.find?_cons_of_neg _ (by simp only [beq_iff_eq]; exact fun he => h1 he.symm)])

end Datasink
